import Mathlib

/-!
Shallow embedding of `src/cleanup-passes/typescript.ts` from the tedium
repository: a repository-maintenance pass that pins the type-declaration
generator in `package.json`, injects an update-types check into the Travis
CI configuration, reinstalls dependencies, reruns the generator, classifies
the changed files reported by git status, and conditionally commits.

External effects (file reads/writes, subprocess spawns, logging, git) are
modelled by an explicit event trace; the mutable module-level version cache
is modelled by explicit state passing.
-/

set_option autoImplicit false

namespace Tedium

/-- The apostrophe character, written by code point to keep string literals
plain ASCII words elsewhere. -/
def sq : Char := Char.ofNat 39

/-- `generatorPackageName` from the source. -/
def generatorPackageName : String := "@polymer/gen-typescript-declarations"

/-- `npmScriptName` from the source. -/
def npmScriptName : String := "update-types"

/-- `npmScriptCommand` from the source. -/
def npmScriptCommand : String :=
  "bower install && gen-typescript-declarations --deleteExisting --outDir ."

/-! ### String helpers

Models of the JavaScript string operations used by the pass:
`String.prototype.includes`, `String.prototype.endsWith`, and the regex
`/latest: \x27(\d+\.\d+\.\d+)\x27/` applied by `getLatestGeneratorVersion`. -/

/-- `leadsWith s p` is true when the character list `p` occurs at the start
of `s`. -/
def leadsWith : List Char → List Char → Bool
  | _, [] => true
  | [], _ :: _ => false
  | c :: cs, p :: ps => decide (c = p) && leadsWith cs ps

/-- `hasSubList s p` is true when `p` occurs contiguously somewhere in `s`. -/
def hasSubList : List Char → List Char → Bool
  | [], p => leadsWith [] p
  | c :: cs, p => leadsWith (c :: cs) p || hasSubList cs p

/-- Model of JavaScript `s.includes(pat)`. -/
def strIncludes (s pat : String) : Bool :=
  hasSubList s.data pat.data

/-- Model of JavaScript `s.endsWith(pat)`. -/
def strEndsWith (s pat : String) : Bool :=
  leadsWith s.data.reverse pat.data.reverse

/-- Take a maximal run of decimal digits from the front of a character
list, returning the digits and the rest. -/
def takeDigits : List Char → List Char × List Char
  | [] => ([], [])
  | c :: cs =>
    if c.isDigit then
      let r := takeDigits cs
      (c :: r.1, r.2)
    else ([], c :: cs)

/-- If `p` occurs at the start of `s`, return the remainder of `s`. -/
def dropLit : List Char → List Char → Option (List Char)
  | rest, [] => some rest
  | [], _ :: _ => none
  | c :: cs, p :: ps => if c = p then dropLit cs ps else none

/-- Match `\d+\.\d+\.\d+` followed by a closing apostrophe at the start of
the character list, returning the captured version characters. -/
def matchVersionAt (cs : List Char) : Option (List Char) :=
  let r1 := takeDigits cs
  if r1.1.isEmpty then none else
  match r1.2 with
  | '.' :: rest1 =>
    let r2 := takeDigits rest1
    if r2.1.isEmpty then none else
    match r2.2 with
    | '.' :: rest2 =>
      let r3 := takeDigits rest2
      if r3.1.isEmpty then none else
      match r3.2 with
      | q :: _ =>
        if q = sq then some (r1.1 ++ '.' :: r2.1 ++ '.' :: r3.1) else none
      | [] => none
    | _ => none
  | _ => none

/-- The literal part of the regex: `latest: ` followed by an apostrophe. -/
def latestLit : List Char := "latest: ".data ++ [sq]

/-- Try to match the whole regex at the start of the character list. -/
def tryLatestAt (cs : List Char) : Option String :=
  match dropLit cs latestLit with
  | none => none
  | some rest => (matchVersionAt rest).map (fun ds => String.mk ds)

/-- Leftmost match of the regex over a character list, as JavaScript
`String.prototype.match` without the global flag. -/
def scanLatest : List Char → Option String
  | [] => none
  | c :: cs =>
    match tryLatestAt (c :: cs) with
    | some v => some v
    | none => scanLatest cs

/-- Model of `stdout.match(/latest: \x27(\d+\.\d+\.\d+)\x27/)`, returning
the captured group. -/
def matchLatest (s : String) : Option String :=
  scanLatest s.data

/-! ### The version resolver (`getLatestGeneratorVersion`)

The module-level mutable `latestGeneratorVersion` becomes explicit state of
type `Option String`.  The function takes the stdout the registry query
would produce and returns the result, the new cache state, and whether the
subprocess was actually invoked. -/

/-- Model of `getLatestGeneratorVersion`: given the stdout of
`npm info @polymer/gen-typescript-declarations` and the current cache,
return (result, new cache, whether the subprocess was spawned). -/
def getLatestGeneratorVersion (npmInfoOutput : String) (cache : Option String) :
    Except String String × Option String × Bool :=
  match cache with
  | some v => (Except.ok v, some v, false)
  | none =>
    match matchLatest npmInfoOutput with
    | some v => (Except.ok v, some v, true)
    | none =>
      (Except.error ("Could not find latest version of " ++ generatorPackageName),
       none, true)

/-- Run a sequence of resolver calls (one stdout per call), threading the
cache, and count how many times the subprocess was spawned. -/
def runResolverCalls : List String → Option String → Option String × Nat
  | [], cache => (cache, 0)
  | out :: rest, cache =>
    let g := getLatestGeneratorVersion out cache
    let r := runResolverCalls rest g.2.1
    (r.1, (if g.2.2 then 1 else 0) + r.2)

/-! ### The manifest (`package.json`) -/

/-- Ordered association list standing for a JavaScript object with string
values; keys are unique. -/
def getKey : List (String × String) → String → Option String
  | [], _ => none
  | (k1, v1) :: rest, k => if k1 = k then some v1 else getKey rest k

/-- JavaScript property assignment `obj[k] = v`: update the binding in
place if the key is present, else append it. -/
def setKey : List (String × String) → String → String → List (String × String)
  | [], k, v => [(k, v)]
  | (k1, v1) :: rest, k, v =>
    if k1 = k then (k, v) :: rest else (k1, v1) :: setKey rest k v

/-- The parts of `NpmConfig` the pass touches. -/
structure NpmConfig where
  devDependencies : Option (List (String × String))
  scripts : Option (List (String × String))
  deriving DecidableEq, Repr

/-- Lines 67-96 of the source: default the two maps, compute the
major-version-bump flag from the old generator range, pin the generator to
`^` + the new version, default the bower dependency, and ensure the
update-types script.  Returns the new config, the majorVersionBump flag and
the updatedNpmScript flag. -/
def updateManifest (satisfies : String → String → Bool) (newGeneratorVersion : String)
    (packageJson : NpmConfig) : NpmConfig × Bool × Bool :=
  let dev0 := packageJson.devDependencies.getD []
  let scripts0 := packageJson.scripts.getD []
  let majorVersionBump :=
    match getKey dev0 generatorPackageName with
    | none => true
    | some oldGeneratorRange => !(satisfies newGeneratorVersion oldGeneratorRange)
  let dev1 := setKey dev0 generatorPackageName ("^" ++ newGeneratorVersion)
  let dev2 :=
    if getKey dev1 "bower" = none then setKey dev1 "bower" "^1.8.0" else dev1
  let scripts1 :=
    if getKey scripts0 npmScriptName = some npmScriptCommand then scripts0
    else setKey scripts0 npmScriptName npmScriptCommand
  let updatedNpmScript := !(getKey scripts0 npmScriptName = some npmScriptCommand)
  ({ devDependencies := some dev2, scripts := some scripts1 },
   majorVersionBump, updatedNpmScript)

/-! ### The Travis CI configuration -/

/-- The slice of the parsed `.travis.yml` document the pass touches. -/
structure TravisYaml where
  before_script : Option (List String)
  deriving DecidableEq, Repr

/-- The command string pushed onto `before_script` (lines 114-124 of the
source; the JavaScript escapes `\\n` and `\\033` denote literal backslash
sequences). -/
def travisCommand : String :=
  "npm run update-types && " ++
  "git diff --exit-code || " ++
  "(echo -e " ++ String.mk [sq] ++ "\\n\\033[31mERROR:\\033[0m Typings are stale. " ++
  "Please run \"npm run update-types\"." ++ String.mk [sq] ++ " && " ++
  "false)"

/-- Lines 107-126 of the source: default `before_script`, drop every line
containing `update-types`, and push the check command. -/
def updateTravis (travisYaml : TravisYaml) : TravisYaml :=
  let bs0 := travisYaml.before_script.getD []
  let bs1 := bs0.filter (fun line => !(strIncludes line "update-types"))
  { before_script := some (bs1 ++ [travisCommand]) }

/-! ### The pass itself -/

/-- Observable external actions of the pass, in order. -/
inductive Event where
  | readPackageJson
  | writePackageJson (cfg : NpmConfig)
  | readTravis
  | writeTravis (y : TravisYaml)
  | log (msg : String)
  | removePackageLock
  | execNpm (args : List String)
  | getStatus
  | makeCommit (files : List String) (msg : String)
  deriving DecidableEq, Repr

/-- The environment a single run of the pass observes: the repository name,
the parse result of `package.json` (`none` models a missing or unparsable
file), the CI config, the lock file, the registry stdout, the outcomes of
the two spawned subprocesses (`none` is success, `some e` the propagated
failure), the git status listing, and the semver range check (the external
`semver.satisfies`). -/
structure PassInput where
  ghRepoName : String
  packageJson : Option NpmConfig
  travisExists : Bool
  travisYaml : TravisYaml
  packageLockExists : Bool
  npmInfoOutput : String
  installError : Option String
  runScriptError : Option String
  status : List String
  satisfies : String → String → Bool

/-- Accumulator of the changed-file classification loop (lines 145-160). -/
structure ClassifyState where
  commitFiles : List String
  updatedTypes : Bool
  updatedTravis : Bool
  logs : List Event
  deriving Repr

/-- One iteration of the classification loop. -/
def classifyOne (ghRepoName : String) (st : ClassifyState) (filepath : String) :
    ClassifyState :=
  if strEndsWith filepath ".d.ts" then
    { st with updatedTypes := true, commitFiles := st.commitFiles ++ [filepath] }
  else if filepath = ".travis.yml" then
    { st with updatedTravis := true, commitFiles := st.commitFiles ++ [filepath] }
  else if filepath = "package.json" ∨ filepath = "package-lock.json" then
    { st with commitFiles := st.commitFiles ++ [filepath] }
  else
    { st with logs :=
        st.logs ++ [Event.log (ghRepoName ++ ": Unexpected changed file: " ++ filepath)] }

/-- The whole classification loop over the git status listing. -/
def classify (ghRepoName : String) (status : List String) : ClassifyState :=
  status.foldl (classifyOne ghRepoName) ⟨[], false, false, []⟩

/-- Trace of the version fetch: the subprocess spawn shows up only when the
cache was cold. -/
def fetchTrace (fetched : Bool) : List Event :=
  if fetched then [Event.execNpm ["info", generatorPackageName]] else []

/-- Lines 101-130: read, rewrite and persist `.travis.yml` when present,
else log that it is missing.  Returns the events and the written document. -/
def travisStage (input : PassInput) : List Event × Option TravisYaml :=
  if input.travisExists then
    let newYaml := updateTravis input.travisYaml
    ([Event.readTravis, Event.writeTravis newYaml], some newYaml)
  else
    ([Event.log (input.ghRepoName ++ ": Missing .travis.yaml")], none)

/-- Lines 132-143: delete the lock file when present, run `npm install`,
then `npm run update-types`; either failure propagates. -/
def runStage (input : PassInput) : List Event × Except String Unit :=
  let t1 := (if input.packageLockExists then [Event.removePackageLock] else [])
      ++ [Event.execNpm ["install"]]
  match input.installError with
  | some e => (t1, Except.error e)
  | none =>
    let t2 := t1 ++ [Event.execNpm ["run", npmScriptName]]
    match input.runScriptError with
    | some e => (t2, Except.error e)
    | none => (t2, Except.ok ())

/-- The fixed commit message (line 164). -/
def commitMessage : String := "Update and/or configure type declarations."

/-- Lines 145-168: classify the changed files, then either commit or log
that nothing changed. -/
def commitStage (input : PassInput) (majorVersionBump updatedNpmScript : Bool) :
    List Event × ClassifyState × Option (List String × String) :=
  let cls := classify input.ghRepoName input.status
  let t1 := Event.getStatus :: cls.logs
  if cls.updatedTypes || majorVersionBump || updatedNpmScript || cls.updatedTravis then
    (t1 ++ [Event.makeCommit cls.commitFiles commitMessage], cls,
     some (cls.commitFiles, commitMessage))
  else
    (t1 ++ [Event.log (input.ghRepoName ++ ": No typings changed.")], cls, none)

/-- Summary of a successful run. -/
structure PassResult where
  packageJson : NpmConfig
  travisWritten : Option TravisYaml
  majorVersionBump : Bool
  updatedNpmScript : Bool
  updatedTypes : Bool
  updatedTravis : Bool
  commit : Option (List String × String)
  deriving Repr

/-- `typescriptPass` (lines 58-169): the whole pass over one repository,
returning the event trace together with the outcome. -/
def typescriptPass (cache : Option String) (input : PassInput) :
    List Event × Except String PassResult :=
  match input.packageJson with
  | none =>
    ([Event.readPackageJson],
     Except.error (input.ghRepoName ++ ": Missing or invalid package.json."))
  | some packageJson0 =>
    let g := getLatestGeneratorVersion input.npmInfoOutput cache
    match g.1 with
    | Except.error e =>
      (Event.readPackageJson :: fetchTrace g.2.2, Except.error e)
    | Except.ok newGeneratorVersion =>
      let m := updateManifest input.satisfies newGeneratorVersion packageJson0
      let t1 := Event.readPackageJson :: fetchTrace g.2.2 ++ [Event.writePackageJson m.1]
      let ts := travisStage input
      let t2 := t1 ++ ts.1
      let r := runStage input
      match r.2 with
      | Except.error e => (t2 ++ r.1, Except.error e)
      | Except.ok _ =>
        let c := commitStage input m.2.1 m.2.2
        (t2 ++ r.1 ++ c.1,
         Except.ok
           { packageJson := m.1
             travisWritten := ts.2
             majorVersionBump := m.2.1
             updatedNpmScript := m.2.2
             updatedTypes := c.2.1.updatedTypes
             updatedTravis := c.2.1.updatedTravis
             commit := c.2.2 })

/-! ### Helper lemmas -/

theorem getKey_setKey_self (m : List (String × String)) (k v : String) :
    getKey (setKey m k v) k = some v := by
  induction m with
  | nil => simp [setKey, getKey]
  | cons hd tl ih =>
    obtain ⟨k1, v1⟩ := hd
    by_cases h : k1 = k
    · simp [setKey, getKey, h]
    · simp [setKey, getKey, h, ih]

theorem getKey_setKey_ne (m : List (String × String)) (k v k2 : String)
    (hne : k ≠ k2) : getKey (setKey m k v) k2 = getKey m k2 := by
  induction m with
  | nil => simp [setKey, getKey, hne]
  | cons hd tl ih =>
    obtain ⟨k1, v1⟩ := hd
    by_cases h : k1 = k
    · subst h
      simp [setKey, getKey, hne]
    · simp [setKey, getKey, h, ih]

theorem updateManifest_gen_entry (sat : String → String → Bool) (v : String)
    (pj : NpmConfig) :
    getKey ((updateManifest sat v pj).1.devDependencies.getD []) generatorPackageName
      = some ("^" ++ v) := by
  unfold updateManifest
  dsimp only
  split
  · simp only [Option.getD_some]
    rw [getKey_setKey_ne _ "bower" "^1.8.0" generatorPackageName (by decide),
      getKey_setKey_self]
  · simp only [Option.getD_some]
    rw [getKey_setKey_self]

theorem updateManifest_script_entry (sat : String → String → Bool) (v : String)
    (pj : NpmConfig) :
    getKey ((updateManifest sat v pj).1.scripts.getD []) npmScriptName
      = some npmScriptCommand := by
  unfold updateManifest
  dsimp only
  split
  · next h => exact h
  · exact getKey_setKey_self _ _ _

theorem updateManifest_bump_of_missing (sat : String → String → Bool) (v : String)
    (pj : NpmConfig)
    (h : getKey (pj.devDependencies.getD []) generatorPackageName = none) :
    (updateManifest sat v pj).2.1 = true := by
  unfold updateManifest
  dsimp only
  rw [h]

theorem updateManifest_bump_of_sat (sat : String → String → Bool) (v : String)
    (pj : NpmConfig) (r : String)
    (h : getKey (pj.devDependencies.getD []) generatorPackageName = some r)
    (hs : sat v r = true) :
    (updateManifest sat v pj).2.1 = false := by
  unfold updateManifest
  dsimp only
  rw [h]
  simp [hs]

theorem updateManifest_bower_of_missing (sat : String → String → Bool) (v : String)
    (pj : NpmConfig)
    (h : getKey (pj.devDependencies.getD []) "bower" = none) :
    getKey ((updateManifest sat v pj).1.devDependencies.getD []) "bower"
      = some "^1.8.0" := by
  unfold updateManifest
  dsimp only
  have h1 : getKey (setKey (pj.devDependencies.getD []) generatorPackageName
      ("^" ++ v)) "bower" = none := by
    rw [getKey_setKey_ne _ _ _ _ (by decide)]
    exact h
  rw [h1]
  simp [getKey_setKey_self]

theorem updateManifest_bower_of_present (sat : String → String → Bool) (v : String)
    (pj : NpmConfig) (r : String)
    (h : getKey (pj.devDependencies.getD []) "bower" = some r) :
    getKey ((updateManifest sat v pj).1.devDependencies.getD []) "bower"
      = some r := by
  unfold updateManifest
  dsimp only
  have h1 : getKey (setKey (pj.devDependencies.getD []) generatorPackageName
      ("^" ++ v)) "bower" = some r := by
    rw [getKey_setKey_ne _ _ _ _ (by decide)]
    exact h
  rw [h1]
  simp [h1]

theorem commitStage_cls (input : PassInput) (a b : Bool) :
    (commitStage input a b).2.1 = classify input.ghRepoName input.status := by
  unfold commitStage
  dsimp only
  split <;> rfl

/-- Reduction of the whole pass on the success path: manifest parses, the
version resolves, and both subprocesses succeed. -/
theorem pass_ok_eq (cache : Option String) (input : PassInput) (pj : NpmConfig)
    (v : String) (st : Option String) (f : Bool)
    (hpj : input.packageJson = some pj)
    (hv : getLatestGeneratorVersion input.npmInfoOutput cache = (Except.ok v, st, f))
    (hi : input.installError = none) (hr : input.runScriptError = none) :
    typescriptPass cache input =
      (Event.readPackageJson ::
         (fetchTrace f
           ++ ([Event.writePackageJson (updateManifest input.satisfies v pj).1]
             ++ ((travisStage input).1
               ++ ((if input.packageLockExists then [Event.removePackageLock] else [])
                 ++ ([Event.execNpm ["install"], Event.execNpm ["run", npmScriptName]]
                   ++ (commitStage input (updateManifest input.satisfies v pj).2.1
                        (updateManifest input.satisfies v pj).2.2).1))))),
       Except.ok
         { packageJson := (updateManifest input.satisfies v pj).1
           travisWritten := (travisStage input).2
           majorVersionBump := (updateManifest input.satisfies v pj).2.1
           updatedNpmScript := (updateManifest input.satisfies v pj).2.2
           updatedTypes := (classify input.ghRepoName input.status).updatedTypes
           updatedTravis := (classify input.ghRepoName input.status).updatedTravis
           commit := (commitStage input (updateManifest input.satisfies v pj).2.1
              (updateManifest input.satisfies v pj).2.2).2.2 }) := by
  unfold typescriptPass runStage
  rw [hpj]
  simp only [hv, hi, hr]
  simp [commitStage_cls, List.append_assoc]

/-- Reduction of the whole pass when `npm install` fails. -/
theorem pass_installFail_eq (cache : Option String) (input : PassInput)
    (pj : NpmConfig) (v : String) (st : Option String) (f : Bool) (e : String)
    (hpj : input.packageJson = some pj)
    (hv : getLatestGeneratorVersion input.npmInfoOutput cache = (Except.ok v, st, f))
    (hi : input.installError = some e) :
    typescriptPass cache input =
      (Event.readPackageJson ::
         (fetchTrace f
           ++ ([Event.writePackageJson (updateManifest input.satisfies v pj).1]
             ++ ((travisStage input).1
               ++ ((if input.packageLockExists then [Event.removePackageLock] else [])
                 ++ [Event.execNpm ["install"]])))),
       Except.error e) := by
  unfold typescriptPass runStage
  rw [hpj]
  simp only [hv, hi]
  simp [List.append_assoc]

/-- Reduction of the whole pass when `npm run update-types` fails. -/
theorem pass_runFail_eq (cache : Option String) (input : PassInput)
    (pj : NpmConfig) (v : String) (st : Option String) (f : Bool) (e : String)
    (hpj : input.packageJson = some pj)
    (hv : getLatestGeneratorVersion input.npmInfoOutput cache = (Except.ok v, st, f))
    (hi : input.installError = none) (hr : input.runScriptError = some e) :
    typescriptPass cache input =
      (Event.readPackageJson ::
         (fetchTrace f
           ++ ([Event.writePackageJson (updateManifest input.satisfies v pj).1]
             ++ ((travisStage input).1
               ++ ((if input.packageLockExists then [Event.removePackageLock] else [])
                 ++ [Event.execNpm ["install"], Event.execNpm ["run", npmScriptName]])))),
       Except.error e) := by
  unfold typescriptPass runStage
  rw [hpj]
  simp only [hv, hi, hr]
  simp [List.append_assoc]

/-- The file paths the classification loop accepts into the commit set. -/
def acceptedPath (p : String) : Prop :=
  strEndsWith p ".d.ts" = true ∨ p = ".travis.yml" ∨ p = "package.json"
    ∨ p = "package-lock.json"

instance (p : String) : Decidable (acceptedPath p) := by
  unfold acceptedPath
  infer_instance

theorem classifyOne_commitFiles_sound (n : String) (st : ClassifyState) (q : String)
    (h : ∀ p ∈ st.commitFiles, acceptedPath p) :
    ∀ p ∈ (classifyOne n st q).commitFiles, acceptedPath p := by
  intro p hp
  unfold classifyOne at hp
  split at hp
  · next hq =>
    simp only [List.mem_append, List.mem_singleton] at hp
    rcases hp with h1 | h1
    · exact h p h1
    · subst h1
      exact Or.inl hq
  · split at hp
    · next hq =>
      simp only [List.mem_append, List.mem_singleton] at hp
      rcases hp with h1 | h1
      · exact h p h1
      · subst h1
        exact Or.inr (Or.inl hq)
    · split at hp
      · next hq =>
        simp only [List.mem_append, List.mem_singleton] at hp
        rcases hp with h1 | h1
        · exact h p h1
        · subst h1
          exact Or.inr (Or.inr hq)
      · exact h p hp

theorem foldl_classify_commitFiles_sound (n : String) (status : List String) :
    ∀ st : ClassifyState, (∀ p ∈ st.commitFiles, acceptedPath p) →
      ∀ p ∈ (status.foldl (classifyOne n) st).commitFiles, acceptedPath p := by
  induction status with
  | nil => intro st h; exact h
  | cons q rest ih =>
    intro st h
    rw [List.foldl_cons]
    exact ih _ (classifyOne_commitFiles_sound n st q h)

theorem classify_commitFiles_sound (n : String) (status : List String) :
    ∀ p ∈ (classify n status).commitFiles, acceptedPath p := by
  unfold classify
  exact foldl_classify_commitFiles_sound n status _ (by intro p hp; cases hp)

theorem classifyOne_logs_extend (n : String) (st : ClassifyState) (q : String) :
    ∃ t, (classifyOne n st q).logs = st.logs ++ t := by
  unfold classifyOne
  split
  · exact ⟨[], by simp⟩
  · split
    · exact ⟨[], by simp⟩
    · split
      · exact ⟨[], by simp⟩
      · exact ⟨[Event.log (n ++ ": Unexpected changed file: " ++ q)], rfl⟩

theorem foldl_classify_logs_extend (n : String) (status : List String) :
    ∀ st : ClassifyState, ∃ t, (status.foldl (classifyOne n) st).logs = st.logs ++ t := by
  induction status with
  | nil => intro st; exact ⟨[], by simp⟩
  | cons q rest ih =>
    intro st
    obtain ⟨t1, h1⟩ := classifyOne_logs_extend n st q
    obtain ⟨t2, h2⟩ := ih (classifyOne n st q)
    rw [List.foldl_cons]
    exact ⟨t1 ++ t2, by rw [h2, h1, List.append_assoc]⟩

theorem classify_unexpected_logged (n : String) (p : String)
    (hna : ¬ acceptedPath p) :
    ∀ (status : List String) (st : ClassifyState), p ∈ status →
      Event.log (n ++ ": Unexpected changed file: " ++ p)
        ∈ (status.foldl (classifyOne n) st).logs := by
  intro status
  induction status with
  | nil => intro st h; cases h
  | cons q rest ih =>
    intro st hmem
    rw [List.foldl_cons]
    rcases List.mem_cons.mp hmem with h1 | h1
    · subst h1
      obtain ⟨t, ht⟩ := foldl_classify_logs_extend n rest (classifyOne n st p)
      rw [ht]
      apply List.mem_append_left
      unfold acceptedPath at hna
      push_neg at hna
      obtain ⟨h1, h2, h3, h4⟩ := hna
      unfold classifyOne
      simp [h1, h2, h3, h4]
    · exact ih _ h1

theorem classifyOne_logs_shape (n : String) (st : ClassifyState) (q : String)
    (h : ∀ e ∈ st.logs, ∃ m, e = Event.log m) :
    ∀ e ∈ (classifyOne n st q).logs, ∃ m, e = Event.log m := by
  intro e he
  obtain ⟨t, ht⟩ := classifyOne_logs_extend n st q
  rw [ht] at he
  rcases List.mem_append.mp he with h1 | h1
  · exact h e h1
  · unfold classifyOne at ht
    split at ht
    · simp at ht
      rw [ht] at h1
      cases h1
    · split at ht
      · simp at ht
        rw [ht] at h1
        cases h1
      · split at ht
        · simp at ht
          rw [ht] at h1
          cases h1
        · simp at ht
          rw [← ht] at h1
          rcases List.mem_singleton.mp h1 with h2
          exact ⟨_, h2⟩

theorem classify_logs_shape (n : String) (status : List String) :
    ∀ e ∈ (classify n status).logs, ∃ m, e = Event.log m := by
  unfold classify
  generalize hinit : (⟨[], false, false, []⟩ : ClassifyState) = st0
  have hbase : ∀ e ∈ st0.logs, ∃ m, e = Event.log m := by
    rw [← hinit]
    intro e he
    cases he
  clear hinit
  induction status generalizing st0 with
  | nil => exact hbase
  | cons q rest ih =>
    rw [List.foldl_cons]
    exact ih _ (classifyOne_logs_shape n st0 q hbase)

theorem travisStage_events_shape (input : PassInput) :
    ∀ e ∈ (travisStage input).1,
      e = Event.readTravis ∨ (∃ y, e = Event.writeTravis y) ∨ ∃ m, e = Event.log m := by
  unfold travisStage
  split
  · intro e he
    rcases List.mem_cons.mp he with h1 | h1
    · exact Or.inl h1
    · rcases List.mem_singleton.mp h1 with h2
      exact Or.inr (Or.inl ⟨_, h2⟩)
  · intro e he
    rcases List.mem_singleton.mp he with h1
    exact Or.inr (Or.inr ⟨_, h1⟩)

theorem commitStage_events_shape (input : PassInput) (a b : Bool) :
    ∀ e ∈ (commitStage input a b).1,
      e = Event.getStatus ∨ (∃ m, e = Event.log m)
        ∨ ∃ fs m, e = Event.makeCommit fs m := by
  unfold commitStage
  dsimp only
  split
  · intro e he
    rcases List.mem_cons.mp he with h1 | h1
    · exact Or.inl h1
    · rcases List.mem_append.mp h1 with h2 | h2
      · obtain ⟨m, hm⟩ := classify_logs_shape input.ghRepoName input.status e h2
        exact Or.inr (Or.inl ⟨m, hm⟩)
      · rcases List.mem_singleton.mp h2 with h3
        exact Or.inr (Or.inr ⟨_, _, h3⟩)
  · intro e he
    rcases List.mem_cons.mp he with h1 | h1
    · exact Or.inl h1
    · rcases List.mem_append.mp h1 with h2 | h2
      · obtain ⟨m, hm⟩ := classify_logs_shape input.ghRepoName input.status e h2
        exact Or.inr (Or.inl ⟨m, hm⟩)
      · rcases List.mem_singleton.mp h2 with h3
        exact Or.inr (Or.inl ⟨_, h3⟩)

theorem travisCommand_has_marker : strIncludes travisCommand "update-types" = true := by
  decide

theorem runResolverCalls_cached (outs : List String) (v : String) :
    runResolverCalls outs (some v) = (some v, 0) := by
  induction outs with
  | nil => rfl
  | cons out rest ih =>
    unfold runResolverCalls
    simp [getLatestGeneratorVersion, ih]

theorem updateManifest_script_unchanged (sat : String → String → Bool) (v : String)
    (pj : NpmConfig)
    (h : getKey (pj.scripts.getD []) npmScriptName = some npmScriptCommand) :
    (updateManifest sat v pj).2.2 = false := by
  unfold updateManifest
  dsimp only
  simp [h]

/-! ### The claims -/

/-- Claim C1: for every valid manifest whose devDependencies lacks an entry for
the generator package, after the manifest-update step the entry exists and
equals `^` followed by the resolved latest version, and the major-version-bump
flag is true. -/
theorem claim_C1 (cache : Option String) (input : PassInput) (pj : NpmConfig)
    (v : String) (st : Option String) (f : Bool)
    (hpj : input.packageJson = some pj)
    (hv : getLatestGeneratorVersion input.npmInfoOutput cache = (Except.ok v, st, f))
    (hmiss : getKey (pj.devDependencies.getD []) generatorPackageName = none)
    (hi : input.installError = none) (hr : input.runScriptError = none) :
    ∃ tr res, typescriptPass cache input = (tr, Except.ok res)
      ∧ Event.writePackageJson res.packageJson ∈ tr
      ∧ getKey (res.packageJson.devDependencies.getD []) generatorPackageName
          = some ("^" ++ v)
      ∧ res.majorVersionBump = true := by
  rw [pass_ok_eq cache input pj v st f hpj hv hi hr]
  refine ⟨_, _, rfl, ?_, ?_, ?_⟩
  · simp
  · exact updateManifest_gen_entry input.satisfies v pj
  · exact updateManifest_bump_of_missing input.satisfies v pj hmiss

/-- Claim C2: for every manifest whose existing generator dependency range
admits (semver-satisfies) the resolved latest version, the major-version-bump
flag is false after the manifest-update step, the range is nonetheless
rewritten to `^` followed by the resolved version, and a second run with the
same resolved version leaves the manifest entry unchanged. -/
theorem claim_C2 (cache : Option String) (input : PassInput) (pj : NpmConfig)
    (v : String) (st : Option String) (f : Bool) (r : String)
    (hpj : input.packageJson = some pj)
    (hv : getLatestGeneratorVersion input.npmInfoOutput cache = (Except.ok v, st, f))
    (hold : getKey (pj.devDependencies.getD []) generatorPackageName = some r)
    (hsat : input.satisfies v r = true)
    (hi : input.installError = none) (hr : input.runScriptError = none) :
    ∃ tr res, typescriptPass cache input = (tr, Except.ok res)
      ∧ res.majorVersionBump = false
      ∧ getKey (res.packageJson.devDependencies.getD []) generatorPackageName
          = some ("^" ++ v)
      ∧ ∃ tr2 res2,
          typescriptPass cache { input with packageJson := some res.packageJson }
            = (tr2, Except.ok res2)
          ∧ getKey (res2.packageJson.devDependencies.getD []) generatorPackageName
              = getKey (res.packageJson.devDependencies.getD []) generatorPackageName := by
  rw [pass_ok_eq cache input pj v st f hpj hv hi hr]
  refine ⟨_, _, rfl, ?_, ?_, ?_⟩
  · exact updateManifest_bump_of_sat input.satisfies v pj r hold hsat
  · exact updateManifest_gen_entry input.satisfies v pj
  · have h2 := pass_ok_eq cache
      { input with packageJson := some (updateManifest input.satisfies v pj).1 }
      ((updateManifest input.satisfies v pj).1) v st f rfl hv hi hr
    exact ⟨_, _, h2, by rw [updateManifest_gen_entry, updateManifest_gen_entry]⟩

/-- Claim C4: if the manifest file is absent or cannot be parsed, the pass
fails before reading or writing the CI config and before spawning the install
or generator subprocesses, with a fatal error whose message distinguishes
missing-or-invalid package.json and includes the repository name. -/
theorem claim_C4 (cache : Option String) (input : PassInput)
    (h : input.packageJson = none) :
    typescriptPass cache input =
      ([Event.readPackageJson],
       Except.error (input.ghRepoName ++ ": Missing or invalid package.json."))
    ∧ Event.readTravis ∉ (typescriptPass cache input).1
    ∧ (∀ y, Event.writeTravis y ∉ (typescriptPass cache input).1)
    ∧ (∀ args, Event.execNpm args ∉ (typescriptPass cache input).1)
    ∧ Event.removePackageLock ∉ (typescriptPass cache input).1 := by
  have heq : typescriptPass cache input =
      ([Event.readPackageJson],
       Except.error (input.ghRepoName ++ ": Missing or invalid package.json.")) := by
    unfold typescriptPass
    rw [h]
  refine ⟨heq, ?_, ?_, ?_, ?_⟩ <;> simp [heq]

/-- Claim C9: within one process run the registry metadata query is executed
at most once: a warm cache is returned as-is without spawning the subprocess,
a cold cache spawns the query once and stores the matched version, a
non-matching output raises the could-not-find-latest-version error, and a
whole sequence of calls after one successful fetch performs exactly one
spawn. -/
theorem claim_C9 :
    (∀ (out v : String),
        getLatestGeneratorVersion out (some v) = (Except.ok v, some v, false))
    ∧ (∀ (out v : String), matchLatest out = some v →
        getLatestGeneratorVersion out none = (Except.ok v, some v, true))
    ∧ (∀ out : String, matchLatest out = none →
        getLatestGeneratorVersion out none =
          (Except.error ("Could not find latest version of " ++ generatorPackageName),
           none, true))
    ∧ (∀ (out v : String) (rest : List String), matchLatest out = some v →
        runResolverCalls (out :: rest) none = (some v, 1)) := by
  refine ⟨?_, ?_, ?_, ?_⟩
  · intro out v
    rfl
  · intro out v h
    unfold getLatestGeneratorVersion
    rw [h]
  · intro out h
    unfold getLatestGeneratorVersion
    rw [h]
  · intro out v rest h
    unfold runResolverCalls
    simp [getLatestGeneratorVersion, h, runResolverCalls_cached]

/-- Claim C3: for every CI configuration document, running the CI-config
update step twice in a row yields a before_script list containing exactly one
copy of the injected update-types command, not two: each run removes every
entry containing the marker substring and appends the command once, so the
second run is the identity. -/
theorem claim_C3 (y : TravisYaml) :
    updateTravis (updateTravis y) = updateTravis y
    ∧ List.countP (fun line => strIncludes line "update-types")
        ((updateTravis (updateTravis y)).before_script.getD []) = 1
    ∧ List.countP (fun line => line == travisCommand)
        ((updateTravis (updateTravis y)).before_script.getD []) = 1 := by
  have hmark := travisCommand_has_marker
  have hidem : updateTravis (updateTravis y) = updateTravis y := by
    unfold updateTravis
    dsimp only
    simp only [Option.getD_some, List.filter_append, List.filter_filter]
    simp [hmark, Bool.and_self]
  refine ⟨hidem, ?_, ?_⟩
  · rw [hidem]
    unfold updateTravis
    dsimp only
    simp only [Option.getD_some]
    rw [List.countP_append]
    have h0 : List.countP (fun line => strIncludes line "update-types")
        ((y.before_script.getD []).filter
          (fun line => !(strIncludes line "update-types"))) = 0 := by
      rw [List.countP_eq_zero]
      intro a ha
      have := List.of_mem_filter ha
      simp at this
      simp [this]
    rw [h0]
    simp [hmark]
  · rw [hidem]
    unfold updateTravis
    dsimp only
    simp only [Option.getD_some]
    rw [List.countP_append]
    have h0 : List.countP (fun line => line == travisCommand)
        ((y.before_script.getD []).filter
          (fun line => !(strIncludes line "update-types"))) = 0 := by
      rw [List.countP_eq_zero]
      intro a ha
      have h1 := List.of_mem_filter ha
      simp only [Bool.not_eq_true'] at h1
      intro hbeq
      rw [beq_iff_eq] at hbeq
      rw [hbeq] at h1
      rw [hmark] at h1
      cases h1
    rw [h0]
    simp

/-- Claim C5: a working-tree status of exactly {a.d.ts, .travis.yml,
package.json} yields a commit over all three files with the types-updated and
CI-updated flags both true; a status of exactly {package.json} with none of
the four flags set yields no commit and a no-typings-changed log line. -/
theorem claim_C5 :
    (∀ (cache : Option String) (input : PassInput) (pj : NpmConfig) (v : String)
        (st : Option String) (f : Bool),
      input.packageJson = some pj →
      getLatestGeneratorVersion input.npmInfoOutput cache = (Except.ok v, st, f) →
      input.installError = none → input.runScriptError = none →
      input.status = ["a.d.ts", ".travis.yml", "package.json"] →
      ∃ tr res, typescriptPass cache input = (tr, Except.ok res)
        ∧ res.commit = some (["a.d.ts", ".travis.yml", "package.json"], commitMessage)
        ∧ res.updatedTypes = true ∧ res.updatedTravis = true)
    ∧ (∀ (cache : Option String) (input : PassInput) (pj : NpmConfig) (v : String)
        (st : Option String) (f : Bool) (r : String),
      input.packageJson = some pj →
      getLatestGeneratorVersion input.npmInfoOutput cache = (Except.ok v, st, f) →
      input.installError = none → input.runScriptError = none →
      input.status = ["package.json"] →
      getKey (pj.devDependencies.getD []) generatorPackageName = some r →
      input.satisfies v r = true →
      getKey (pj.scripts.getD []) npmScriptName = some npmScriptCommand →
      ∃ tr res, typescriptPass cache input = (tr, Except.ok res)
        ∧ res.commit = none
        ∧ Event.log (input.ghRepoName ++ ": No typings changed.") ∈ tr
        ∧ res.updatedTypes = false ∧ res.updatedTravis = false
        ∧ res.majorVersionBump = false ∧ res.updatedNpmScript = false) := by
  constructor
  · intro cache input pj v st f hpj hv hi hr hstatus
    rw [pass_ok_eq cache input pj v st f hpj hv hi hr]
    have hcls : classify input.ghRepoName ["a.d.ts", ".travis.yml", "package.json"]
        = ⟨["a.d.ts", ".travis.yml", "package.json"], true, true, []⟩ := rfl
    refine ⟨_, _, rfl, ?_, ?_, ?_⟩
    · show (commitStage input _ _).2.2 = _
      unfold commitStage
      dsimp only
      rw [hstatus, hcls]
      simp
    · show (classify input.ghRepoName input.status).updatedTypes = true
      rw [hstatus, hcls]
    · show (classify input.ghRepoName input.status).updatedTravis = true
      rw [hstatus, hcls]
  · intro cache input pj v st f r hpj hv hi hr hstatus hold hsat hscript
    have hb := updateManifest_bump_of_sat input.satisfies v pj r hold hsat
    have hs := updateManifest_script_unchanged input.satisfies v pj hscript
    rw [pass_ok_eq cache input pj v st f hpj hv hi hr, hb, hs]
    have hcls : classify input.ghRepoName ["package.json"]
        = ⟨["package.json"], false, false, []⟩ := rfl
    have hcommit : commitStage input false false
        = (Event.getStatus :: [Event.log (input.ghRepoName ++ ": No typings changed.")],
           ⟨["package.json"], false, false, []⟩, none) := by
      unfold commitStage
      dsimp only
      rw [hstatus, hcls]
      simp
    refine ⟨_, _, rfl, ?_, ?_, ?_, ?_, rfl, rfl⟩
    · rw [hcommit]
    · rw [hcommit]
      simp
    · show (classify input.ghRepoName input.status).updatedTypes = false
      rw [hstatus, hcls]
    · show (classify input.ghRepoName input.status).updatedTravis = false
      rw [hstatus, hcls]

theorem fetchTrace_shape (b : Bool) :
    ∀ e ∈ fetchTrace b, e = Event.execNpm ["info", generatorPackageName] := by
  unfold fetchTrace
  cases b <;> simp

theorem mem_lock_events (c : Bool) (e : Event)
    (h : e ∈ (if c then [Event.removePackageLock] else [])) :
    e = Event.removePackageLock := by
  split at h
  · exact List.mem_singleton.mp h
  · cases h

theorem commitStage_logs_sub (input : PassInput) (a b : Bool) :
    ∀ e ∈ (classify input.ghRepoName input.status).logs,
      e ∈ (commitStage input a b).1 := by
  unfold commitStage
  dsimp only
  split <;> (intro e he; simp [he])

theorem commitStage_commit_files (input : PassInput) (a b : Bool)
    (files : List String) (msg : String)
    (h : (commitStage input a b).2.2 = some (files, msg)) :
    files = (classify input.ghRepoName input.status).commitFiles := by
  unfold commitStage at h
  dsimp only at h
  split at h
  · simp at h
    exact h.1.symm
  · simp at h

/-- Every event on the success-path trace has one of the expected shapes. -/
theorem ok_trace_mem_shape (cache : Option String) (input : PassInput)
    (pj : NpmConfig) (v : String) (st : Option String) (f : Bool)
    (hpj : input.packageJson = some pj)
    (hv : getLatestGeneratorVersion input.npmInfoOutput cache = (Except.ok v, st, f))
    (hi : input.installError = none) (hr : input.runScriptError = none) :
    ∀ e ∈ (typescriptPass cache input).1,
      e = Event.readPackageJson ∨ (∃ args, e = Event.execNpm args)
      ∨ (∃ cfg, e = Event.writePackageJson cfg)
      ∨ e ∈ (travisStage input).1
      ∨ e = Event.removePackageLock ∨ e = Event.getStatus
      ∨ (∃ m, e = Event.log m) ∨ (∃ fs m, e = Event.makeCommit fs m) := by
  rw [pass_ok_eq cache input pj v st f hpj hv hi hr]
  intro e he
  rcases List.mem_cons.mp he with h | h
  · exact Or.inl h
  rcases List.mem_append.mp h with h | h
  · exact Or.inr (Or.inl ⟨_, fetchTrace_shape f e h⟩)
  rcases List.mem_append.mp h with h | h
  · exact Or.inr (Or.inr (Or.inl ⟨_, List.mem_singleton.mp h⟩))
  rcases List.mem_append.mp h with h | h
  · exact Or.inr (Or.inr (Or.inr (Or.inl h)))
  rcases List.mem_append.mp h with h | h
  · exact Or.inr (Or.inr (Or.inr (Or.inr (Or.inl (mem_lock_events _ e h)))))
  rcases List.mem_append.mp h with h | h
  · rcases List.mem_cons.mp h with h1 | h1
    · exact Or.inr (Or.inl ⟨_, h1⟩)
    · exact Or.inr (Or.inl ⟨_, List.mem_singleton.mp h1⟩)
  · rcases commitStage_events_shape input _ _ e h with h1 | h1 | h1
    · exact Or.inr (Or.inr (Or.inr (Or.inr (Or.inr (Or.inl h1)))))
    · exact Or.inr (Or.inr (Or.inr (Or.inr (Or.inr (Or.inr (Or.inl h1))))))
    · exact Or.inr (Or.inr (Or.inr (Or.inr (Or.inr (Or.inr (Or.inr h1))))))

/-- Claim C6: if the CI config file does not exist, no CI file is read or
written, a log line naming the repository is produced, and the pass still
proceeds to lock-file deletion, install, generator run, classification and
the commit decision. -/
theorem claim_C6 (cache : Option String) (input : PassInput) (pj : NpmConfig)
    (v : String) (st : Option String) (f : Bool)
    (hpj : input.packageJson = some pj)
    (hv : getLatestGeneratorVersion input.npmInfoOutput cache = (Except.ok v, st, f))
    (hi : input.installError = none) (hr : input.runScriptError = none)
    (hte : input.travisExists = false) :
    ∃ tr res, typescriptPass cache input = (tr, Except.ok res)
      ∧ res.travisWritten = none
      ∧ Event.log (input.ghRepoName ++ ": Missing .travis.yaml") ∈ tr
      ∧ Event.readTravis ∉ tr
      ∧ (∀ y, Event.writeTravis y ∉ tr)
      ∧ Event.execNpm ["install"] ∈ tr
      ∧ Event.execNpm ["run", npmScriptName] ∈ tr
      ∧ Event.getStatus ∈ tr
      ∧ (input.packageLockExists = true → Event.removePackageLock ∈ tr) := by
  have hts : travisStage input
      = ([Event.log (input.ghRepoName ++ ": Missing .travis.yaml")], none) := by
    unfold travisStage
    rw [hte]
    simp
  have hshape := ok_trace_mem_shape cache input pj v st f hpj hv hi hr
  rw [pass_ok_eq cache input pj v st f hpj hv hi hr] at hshape ⊢
  rw [hts] at hshape ⊢
  refine ⟨_, _, rfl, rfl, ?_, ?_, ?_, ?_, ?_, ?_, ?_⟩
  · simp
  · intro hmem
    rcases hshape Event.readTravis hmem with h | h | h | h | h | h | h | h
    · exact Event.noConfusion h
    · obtain ⟨args, hc⟩ := h
      exact Event.noConfusion hc
    · obtain ⟨cfg, hc⟩ := h
      exact Event.noConfusion hc
    · exact Event.noConfusion (List.mem_singleton.mp h)
    · exact Event.noConfusion h
    · exact Event.noConfusion h
    · obtain ⟨m, hc⟩ := h
      exact Event.noConfusion hc
    · obtain ⟨fs, m, hc⟩ := h
      exact Event.noConfusion hc
  · intro y hmem
    rcases hshape (Event.writeTravis y) hmem with h | h | h | h | h | h | h | h
    · exact Event.noConfusion h
    · obtain ⟨args, hc⟩ := h
      exact Event.noConfusion hc
    · obtain ⟨cfg, hc⟩ := h
      exact Event.noConfusion hc
    · exact Event.noConfusion (List.mem_singleton.mp h)
    · exact Event.noConfusion h
    · exact Event.noConfusion h
    · obtain ⟨m, hc⟩ := h
      exact Event.noConfusion hc
    · obtain ⟨fs, m, hc⟩ := h
      exact Event.noConfusion hc
  · simp
  · simp
  · have : Event.getStatus ∈ (commitStage input
        (updateManifest input.satisfies v pj).2.1
        (updateManifest input.satisfies v pj).2.2).1 := by
      unfold commitStage
      dsimp only
      split <;> simp
    simp [this]
  · intro hl
    rw [hl]
    simp

/-- Claim C7: a changed-file path that is not a declaration file, not the CI
config, and not the manifest or its lock file does not make the pass fail: it
is logged as unexpected and never appears among the committed files. -/
theorem claim_C7 (cache : Option String) (input : PassInput) (pj : NpmConfig)
    (v : String) (st : Option String) (f : Bool) (p : String)
    (hpj : input.packageJson = some pj)
    (hv : getLatestGeneratorVersion input.npmInfoOutput cache = (Except.ok v, st, f))
    (hi : input.installError = none) (hr : input.runScriptError = none)
    (hp : p ∈ input.status)
    (hnd : strEndsWith p ".d.ts" = false) (h1 : p ≠ ".travis.yml")
    (h2 : p ≠ "package.json") (h3 : p ≠ "package-lock.json") :
    ∃ tr res, typescriptPass cache input = (tr, Except.ok res)
      ∧ Event.log (input.ghRepoName ++ ": Unexpected changed file: " ++ p) ∈ tr
      ∧ ∀ files msg, res.commit = some (files, msg) → p ∉ files := by
  have hna : ¬ acceptedPath p := by
    unfold acceptedPath
    push_neg
    exact ⟨by simp [hnd], h1, h2, h3⟩
  rw [pass_ok_eq cache input pj v st f hpj hv hi hr]
  refine ⟨_, _, rfl, ?_, ?_⟩
  · have hlog := classify_unexpected_logged input.ghRepoName p hna input.status
      ⟨[], false, false, []⟩ hp
    have hsub := commitStage_logs_sub input
      (updateManifest input.satisfies v pj).2.1
      (updateManifest input.satisfies v pj).2.2 _ hlog
    simp [hsub]
  · intro files msg hcommit hpf
    have hfiles := commitStage_commit_files input
      (updateManifest input.satisfies v pj).2.1
      (updateManifest input.satisfies v pj).2.2 files msg hcommit
    rw [hfiles] at hpf
    exact hna (classify_commitFiles_sound input.ghRepoName input.status p hpf)

theorem installFail_trace_mem_shape (cache : Option String) (input : PassInput)
    (pj : NpmConfig) (v : String) (st : Option String) (f : Bool) (e : String)
    (hpj : input.packageJson = some pj)
    (hv : getLatestGeneratorVersion input.npmInfoOutput cache = (Except.ok v, st, f))
    (hie : input.installError = some e) :
    ∀ e2 ∈ (typescriptPass cache input).1,
      e2 = Event.readPackageJson
      ∨ e2 = Event.execNpm ["info", generatorPackageName]
      ∨ (∃ cfg, e2 = Event.writePackageJson cfg)
      ∨ e2 = Event.readTravis ∨ (∃ y, e2 = Event.writeTravis y)
      ∨ (∃ m, e2 = Event.log m)
      ∨ e2 = Event.removePackageLock
      ∨ e2 = Event.execNpm ["install"] := by
  rw [pass_installFail_eq cache input pj v st f e hpj hv hie]
  intro e2 he
  rcases List.mem_cons.mp he with h | h
  · exact Or.inl h
  rcases List.mem_append.mp h with h | h
  · exact Or.inr (Or.inl (fetchTrace_shape f e2 h))
  rcases List.mem_append.mp h with h | h
  · exact Or.inr (Or.inr (Or.inl ⟨_, List.mem_singleton.mp h⟩))
  rcases List.mem_append.mp h with h | h
  · rcases travisStage_events_shape input e2 h with h1 | h1 | h1
    · exact Or.inr (Or.inr (Or.inr (Or.inl h1)))
    · exact Or.inr (Or.inr (Or.inr (Or.inr (Or.inl h1))))
    · exact Or.inr (Or.inr (Or.inr (Or.inr (Or.inr (Or.inl h1)))))
  rcases List.mem_append.mp h with h | h
  · exact Or.inr (Or.inr (Or.inr (Or.inr (Or.inr (Or.inr
      (Or.inl (mem_lock_events _ e2 h)))))))
  · exact Or.inr (Or.inr (Or.inr (Or.inr (Or.inr (Or.inr
      (Or.inr (List.mem_singleton.mp h)))))))

theorem runFail_trace_mem_shape (cache : Option String) (input : PassInput)
    (pj : NpmConfig) (v : String) (st : Option String) (f : Bool) (e : String)
    (hpj : input.packageJson = some pj)
    (hv : getLatestGeneratorVersion input.npmInfoOutput cache = (Except.ok v, st, f))
    (hie : input.installError = none) (hre : input.runScriptError = some e) :
    ∀ e2 ∈ (typescriptPass cache input).1,
      e2 = Event.readPackageJson
      ∨ e2 = Event.execNpm ["info", generatorPackageName]
      ∨ (∃ cfg, e2 = Event.writePackageJson cfg)
      ∨ e2 = Event.readTravis ∨ (∃ y, e2 = Event.writeTravis y)
      ∨ (∃ m, e2 = Event.log m)
      ∨ e2 = Event.removePackageLock
      ∨ e2 = Event.execNpm ["install"]
      ∨ e2 = Event.execNpm ["run", npmScriptName] := by
  rw [pass_runFail_eq cache input pj v st f e hpj hv hie hre]
  intro e2 he
  rcases List.mem_cons.mp he with h | h
  · exact Or.inl h
  rcases List.mem_append.mp h with h | h
  · exact Or.inr (Or.inl (fetchTrace_shape f e2 h))
  rcases List.mem_append.mp h with h | h
  · exact Or.inr (Or.inr (Or.inl ⟨_, List.mem_singleton.mp h⟩))
  rcases List.mem_append.mp h with h | h
  · rcases travisStage_events_shape input e2 h with h1 | h1 | h1
    · exact Or.inr (Or.inr (Or.inr (Or.inl h1)))
    · exact Or.inr (Or.inr (Or.inr (Or.inr (Or.inl h1))))
    · exact Or.inr (Or.inr (Or.inr (Or.inr (Or.inr (Or.inl h1)))))
  rcases List.mem_append.mp h with h | h
  · exact Or.inr (Or.inr (Or.inr (Or.inr (Or.inr (Or.inr
      (Or.inl (mem_lock_events _ e2 h)))))))
  rcases List.mem_cons.mp h with h1 | h1
  · exact Or.inr (Or.inr (Or.inr (Or.inr (Or.inr (Or.inr (Or.inr (Or.inl h1)))))))
  · exact Or.inr (Or.inr (Or.inr (Or.inr (Or.inr (Or.inr
      (Or.inr (Or.inr (List.mem_singleton.mp h1))))))))

/-- Claim C8: the lock file (when present) is deleted immediately before the
package-manager install, the install precedes the generator run, and a
failure of either subprocess propagates as a fatal error that aborts the
remaining steps (no generator run, status query or commit after an install
failure; no status query or commit after a generator failure). -/
theorem claim_C8 (cache : Option String) (input : PassInput) (pj : NpmConfig)
    (v : String) (st : Option String) (f : Bool)
    (hpj : input.packageJson = some pj)
    (hv : getLatestGeneratorVersion input.npmInfoOutput cache = (Except.ok v, st, f)) :
    (∀ e, input.installError = some e →
      (typescriptPass cache input).2 = Except.error e
      ∧ Event.execNpm ["run", npmScriptName] ∉ (typescriptPass cache input).1
      ∧ Event.getStatus ∉ (typescriptPass cache input).1
      ∧ (∀ fs m, Event.makeCommit fs m ∉ (typescriptPass cache input).1))
    ∧ (∀ e, input.installError = none → input.runScriptError = some e →
      (typescriptPass cache input).2 = Except.error e
      ∧ Event.getStatus ∉ (typescriptPass cache input).1
      ∧ (∀ fs m, Event.makeCommit fs m ∉ (typescriptPass cache input).1))
    ∧ (input.installError = none → input.runScriptError = none →
      input.packageLockExists = true →
      ∃ pre post, (typescriptPass cache input).1 =
        pre ++ [Event.removePackageLock, Event.execNpm ["install"],
                Event.execNpm ["run", npmScriptName]] ++ post)
    ∧ (input.installError = none → input.runScriptError = none →
      ∃ pre post, (typescriptPass cache input).1 =
        pre ++ [Event.execNpm ["install"], Event.execNpm ["run", npmScriptName]] ++ post) := by
  refine ⟨?_, ?_, ?_, ?_⟩
  · intro e hie
    have hsh := installFail_trace_mem_shape cache input pj v st f e hpj hv hie
    refine ⟨?_, ?_, ?_, ?_⟩
    · rw [pass_installFail_eq cache input pj v st f e hpj hv hie]
    · intro hmem
      rcases hsh _ hmem with h | h | h | h | h | h | h | h
      · exact Event.noConfusion h
      · exact absurd h (by decide)
      · obtain ⟨cfg, hc⟩ := h
        exact Event.noConfusion hc
      · exact Event.noConfusion h
      · obtain ⟨y2, hc⟩ := h
        exact Event.noConfusion hc
      · obtain ⟨m2, hc⟩ := h
        exact Event.noConfusion hc
      · exact Event.noConfusion h
      · exact absurd h (by decide)
    · intro hmem
      rcases hsh _ hmem with h | h | h | h | h | h | h | h
      · exact Event.noConfusion h
      · exact Event.noConfusion h
      · obtain ⟨cfg, hc⟩ := h
        exact Event.noConfusion hc
      · exact Event.noConfusion h
      · obtain ⟨y2, hc⟩ := h
        exact Event.noConfusion hc
      · obtain ⟨m2, hc⟩ := h
        exact Event.noConfusion hc
      · exact Event.noConfusion h
      · exact Event.noConfusion h
    · intro fs m hmem
      rcases hsh _ hmem with h | h | h | h | h | h | h | h
      · exact Event.noConfusion h
      · exact Event.noConfusion h
      · obtain ⟨cfg, hc⟩ := h
        exact Event.noConfusion hc
      · exact Event.noConfusion h
      · obtain ⟨y2, hc⟩ := h
        exact Event.noConfusion hc
      · obtain ⟨m2, hc⟩ := h
        exact Event.noConfusion hc
      · exact Event.noConfusion h
      · exact Event.noConfusion h
  · intro e hie hre
    have hsh := runFail_trace_mem_shape cache input pj v st f e hpj hv hie hre
    refine ⟨?_, ?_, ?_⟩
    · rw [pass_runFail_eq cache input pj v st f e hpj hv hie hre]
    · intro hmem
      rcases hsh _ hmem with h | h | h | h | h | h | h | h | h
      · exact Event.noConfusion h
      · exact Event.noConfusion h
      · obtain ⟨cfg, hc⟩ := h
        exact Event.noConfusion hc
      · exact Event.noConfusion h
      · obtain ⟨y2, hc⟩ := h
        exact Event.noConfusion hc
      · obtain ⟨m2, hc⟩ := h
        exact Event.noConfusion hc
      · exact Event.noConfusion h
      · exact Event.noConfusion h
      · exact Event.noConfusion h
    · intro fs m hmem
      rcases hsh _ hmem with h | h | h | h | h | h | h | h | h
      · exact Event.noConfusion h
      · exact Event.noConfusion h
      · obtain ⟨cfg, hc⟩ := h
        exact Event.noConfusion hc
      · exact Event.noConfusion h
      · obtain ⟨y2, hc⟩ := h
        exact Event.noConfusion hc
      · obtain ⟨m2, hc⟩ := h
        exact Event.noConfusion hc
      · exact Event.noConfusion h
      · exact Event.noConfusion h
      · exact Event.noConfusion h
  · intro hie hre hlock
    rw [pass_ok_eq cache input pj v st f hpj hv hie hre, hlock]
    refine ⟨Event.readPackageJson ::
        (fetchTrace f
          ++ ([Event.writePackageJson (updateManifest input.satisfies v pj).1]
            ++ (travisStage input).1)),
      (commitStage input (updateManifest input.satisfies v pj).2.1
        (updateManifest input.satisfies v pj).2.2).1, ?_⟩
    simp [List.append_assoc]
  · intro hie hre
    rw [pass_ok_eq cache input pj v st f hpj hv hie hre]
    refine ⟨Event.readPackageJson ::
        (fetchTrace f
          ++ ([Event.writePackageJson (updateManifest input.satisfies v pj).1]
            ++ ((travisStage input).1
              ++ (if input.packageLockExists then [Event.removePackageLock] else [])))),
      (commitStage input (updateManifest input.satisfies v pj).2.1
        (updateManifest input.satisfies v pj).2.2).1, ?_⟩
    simp [List.append_assoc]

theorem updateManifest_maps_present (sat : String → String → Bool) (v : String)
    (pj : NpmConfig) :
    (updateManifest sat v pj).1.devDependencies.isSome = true
    ∧ (updateManifest sat v pj).1.scripts.isSome = true := by
  unfold updateManifest
  dsimp only
  exact ⟨rfl, rfl⟩

/-- Claim C10: a valid manifest in which the devDependencies map or the
scripts map is entirely absent does not make the pass fail: both maps exist
afterwards, the generator is pinned, an absent generator entry counts as a
major version bump, bower is defaulted to `^1.8.0` only when it was absent,
and the update-types script is set. -/
theorem claim_C10 (cache : Option String) (input : PassInput) (pj : NpmConfig)
    (v : String) (st : Option String) (f : Bool)
    (hpj : input.packageJson = some pj)
    (hv : getLatestGeneratorVersion input.npmInfoOutput cache = (Except.ok v, st, f))
    (hi : input.installError = none) (hr : input.runScriptError = none)
    (habs : pj.devDependencies = none ∨ pj.scripts = none) :
    ∃ tr res, typescriptPass cache input = (tr, Except.ok res)
      ∧ res.packageJson.devDependencies.isSome = true
      ∧ res.packageJson.scripts.isSome = true
      ∧ getKey (res.packageJson.devDependencies.getD []) generatorPackageName
          = some ("^" ++ v)
      ∧ getKey (res.packageJson.scripts.getD []) npmScriptName = some npmScriptCommand
      ∧ (pj.devDependencies = none → res.majorVersionBump = true
          ∧ getKey (res.packageJson.devDependencies.getD []) "bower" = some "^1.8.0")
      ∧ (∀ r2, getKey (pj.devDependencies.getD []) "bower" = some r2 →
          getKey (res.packageJson.devDependencies.getD []) "bower" = some r2) := by
  rw [pass_ok_eq cache input pj v st f hpj hv hi hr]
  refine ⟨_, _, rfl, ?_, ?_, ?_, ?_, ?_, ?_⟩
  · exact (updateManifest_maps_present input.satisfies v pj).1
  · exact (updateManifest_maps_present input.satisfies v pj).2
  · exact updateManifest_gen_entry input.satisfies v pj
  · exact updateManifest_script_entry input.satisfies v pj
  · intro hdev
    constructor
    · exact updateManifest_bump_of_missing input.satisfies v pj (by rw [hdev]; rfl)
    · exact updateManifest_bower_of_missing input.satisfies v pj (by rw [hdev]; rfl)
  · intro r2 hr2
    exact updateManifest_bower_of_present input.satisfies v pj r2 hr2

/-! ### Concrete inputs for the witnesses -/

/-- A concrete pass environment used by the witnesses. -/
def mkInput (pjOpt : Option NpmConfig) (travisExists : Bool)
    (installError runScriptError : Option String) (status : List String) : PassInput :=
  { ghRepoName := "paper-button"
    packageJson := pjOpt
    travisExists := travisExists
    travisYaml := { before_script := some ["npm run lint"] }
    packageLockExists := true
    npmInfoOutput := "latest: " ++ String.mk [sq] ++ "2.6.1" ++ String.mk [sq]
    installError := installError
    runScriptError := runScriptError
    status := status
    satisfies := fun v r => r = "^" ++ v }

/-- A manifest with both maps present but empty. -/
def pjEmpty : NpmConfig := { devDependencies := some [], scripts := some [] }

/-- A manifest already pinning the generator and carrying the script. -/
def pjWithGen : NpmConfig :=
  { devDependencies := some [(generatorPackageName, "^2.6.1")]
    scripts := some [(npmScriptName, npmScriptCommand)] }

/-- A manifest with both maps absent. -/
def pjAbsent : NpmConfig := { devDependencies := none, scripts := none }

theorem claim_C1_witness :
    ∃ tr res, typescriptPass none (mkInput (some pjEmpty) true none none [])
        = (tr, Except.ok res)
      ∧ Event.writePackageJson res.packageJson ∈ tr
      ∧ getKey (res.packageJson.devDependencies.getD []) generatorPackageName
          = some ("^" ++ "2.6.1")
      ∧ res.majorVersionBump = true :=
  claim_C1 none (mkInput (some pjEmpty) true none none []) pjEmpty "2.6.1"
    (some "2.6.1") true rfl rfl rfl rfl rfl

theorem claim_C2_witness :
    ∃ tr res, typescriptPass none (mkInput (some pjWithGen) true none none [])
        = (tr, Except.ok res)
      ∧ res.majorVersionBump = false
      ∧ getKey (res.packageJson.devDependencies.getD []) generatorPackageName
          = some ("^" ++ "2.6.1")
      ∧ ∃ tr2 res2,
          typescriptPass none
              { mkInput (some pjWithGen) true none none [] with
                packageJson := some res.packageJson }
            = (tr2, Except.ok res2)
          ∧ getKey (res2.packageJson.devDependencies.getD []) generatorPackageName
              = getKey (res.packageJson.devDependencies.getD []) generatorPackageName :=
  claim_C2 none (mkInput (some pjWithGen) true none none []) pjWithGen "2.6.1"
    (some "2.6.1") true "^2.6.1" rfl rfl rfl (by decide) rfl rfl

theorem claim_C4_witness :
    typescriptPass none (mkInput none true none none []) =
      ([Event.readPackageJson],
       Except.error ((mkInput none true none none []).ghRepoName
         ++ ": Missing or invalid package.json."))
    ∧ Event.readTravis ∉ (typescriptPass none (mkInput none true none none [])).1
    ∧ (∀ y, Event.writeTravis y ∉ (typescriptPass none (mkInput none true none none [])).1)
    ∧ (∀ args, Event.execNpm args ∉ (typescriptPass none (mkInput none true none none [])).1)
    ∧ Event.removePackageLock ∉ (typescriptPass none (mkInput none true none none [])).1 :=
  claim_C4 none (mkInput none true none none []) rfl

theorem claim_C5_witness :
    (∃ tr res, typescriptPass none
        (mkInput (some pjEmpty) true none none ["a.d.ts", ".travis.yml", "package.json"])
        = (tr, Except.ok res)
      ∧ res.commit = some (["a.d.ts", ".travis.yml", "package.json"], commitMessage)
      ∧ res.updatedTypes = true ∧ res.updatedTravis = true)
    ∧ (∃ tr res, typescriptPass none
        (mkInput (some pjWithGen) true none none ["package.json"])
        = (tr, Except.ok res)
      ∧ res.commit = none
      ∧ Event.log ((mkInput (some pjWithGen) true none none ["package.json"]).ghRepoName
          ++ ": No typings changed.") ∈ tr
      ∧ res.updatedTypes = false ∧ res.updatedTravis = false
      ∧ res.majorVersionBump = false ∧ res.updatedNpmScript = false) :=
  ⟨claim_C5.1 none
      (mkInput (some pjEmpty) true none none ["a.d.ts", ".travis.yml", "package.json"])
      pjEmpty "2.6.1" (some "2.6.1") true rfl rfl rfl rfl rfl,
   claim_C5.2 none (mkInput (some pjWithGen) true none none ["package.json"])
      pjWithGen "2.6.1" (some "2.6.1") true "^2.6.1" rfl rfl rfl rfl rfl rfl
      (by decide) rfl⟩

theorem claim_C6_witness :
    ∃ tr res, typescriptPass none (mkInput (some pjEmpty) false none none [])
        = (tr, Except.ok res)
      ∧ res.travisWritten = none
      ∧ Event.log ((mkInput (some pjEmpty) false none none []).ghRepoName
          ++ ": Missing .travis.yaml") ∈ tr
      ∧ Event.readTravis ∉ tr
      ∧ (∀ y, Event.writeTravis y ∉ tr)
      ∧ Event.execNpm ["install"] ∈ tr
      ∧ Event.execNpm ["run", npmScriptName] ∈ tr
      ∧ Event.getStatus ∈ tr
      ∧ ((mkInput (some pjEmpty) false none none []).packageLockExists = true →
          Event.removePackageLock ∈ tr) :=
  claim_C6 none (mkInput (some pjEmpty) false none none []) pjEmpty "2.6.1"
    (some "2.6.1") true rfl rfl rfl rfl rfl

theorem claim_C7_witness :
    ∃ tr res, typescriptPass none (mkInput (some pjEmpty) true none none ["README.md"])
        = (tr, Except.ok res)
      ∧ Event.log ((mkInput (some pjEmpty) true none none ["README.md"]).ghRepoName
          ++ ": Unexpected changed file: " ++ "README.md") ∈ tr
      ∧ ∀ files msg, res.commit = some (files, msg) → "README.md" ∉ files :=
  claim_C7 none (mkInput (some pjEmpty) true none none ["README.md"]) pjEmpty
    "2.6.1" (some "2.6.1") true "README.md" rfl rfl rfl rfl (by decide) rfl
    (by decide) (by decide) (by decide)

theorem claim_C8_witness :
    ((typescriptPass none (mkInput (some pjEmpty) true (some "install failed") none [])).2
        = Except.error "install failed"
      ∧ Event.execNpm ["run", npmScriptName]
          ∉ (typescriptPass none (mkInput (some pjEmpty) true (some "install failed") none [])).1
      ∧ Event.getStatus
          ∉ (typescriptPass none (mkInput (some pjEmpty) true (some "install failed") none [])).1
      ∧ (∀ fs m, Event.makeCommit fs m
          ∉ (typescriptPass none (mkInput (some pjEmpty) true (some "install failed") none [])).1))
    ∧ ((typescriptPass none (mkInput (some pjEmpty) true none (some "run failed") [])).2
        = Except.error "run failed"
      ∧ Event.getStatus
          ∉ (typescriptPass none (mkInput (some pjEmpty) true none (some "run failed") [])).1
      ∧ (∀ fs m, Event.makeCommit fs m
          ∉ (typescriptPass none (mkInput (some pjEmpty) true none (some "run failed") [])).1))
    ∧ (∃ pre post, (typescriptPass none (mkInput (some pjEmpty) true none none [])).1 =
        pre ++ [Event.removePackageLock, Event.execNpm ["install"],
                Event.execNpm ["run", npmScriptName]] ++ post)
    ∧ (∃ pre post, (typescriptPass none (mkInput (some pjEmpty) true none none [])).1 =
        pre ++ [Event.execNpm ["install"], Event.execNpm ["run", npmScriptName]] ++ post) :=
  ⟨(claim_C8 none (mkInput (some pjEmpty) true (some "install failed") none [])
      pjEmpty "2.6.1" (some "2.6.1") true rfl rfl).1 "install failed" rfl,
   (claim_C8 none (mkInput (some pjEmpty) true none (some "run failed") [])
      pjEmpty "2.6.1" (some "2.6.1") true rfl rfl).2.1 "run failed" rfl rfl,
   (claim_C8 none (mkInput (some pjEmpty) true none none [])
      pjEmpty "2.6.1" (some "2.6.1") true rfl rfl).2.2.1 rfl rfl rfl,
   (claim_C8 none (mkInput (some pjEmpty) true none none [])
      pjEmpty "2.6.1" (some "2.6.1") true rfl rfl).2.2.2 rfl rfl⟩

theorem claim_C9_witness :
    getLatestGeneratorVersion "anything" (some "1.2.3")
      = (Except.ok "1.2.3", some "1.2.3", false)
    ∧ getLatestGeneratorVersion ("latest: " ++ String.mk [sq] ++ "2.6.1" ++ String.mk [sq]) none
      = (Except.ok "2.6.1", some "2.6.1", true)
    ∧ getLatestGeneratorVersion "no version here" none
      = (Except.error ("Could not find latest version of " ++ generatorPackageName),
         none, true)
    ∧ runResolverCalls
        [("latest: " ++ String.mk [sq] ++ "2.6.1" ++ String.mk [sq]), "second call"] none
      = (some "2.6.1", 1) :=
  ⟨claim_C9.1 "anything" "1.2.3",
   claim_C9.2.1 ("latest: " ++ String.mk [sq] ++ "2.6.1" ++ String.mk [sq]) "2.6.1" rfl,
   claim_C9.2.2.1 "no version here" rfl,
   claim_C9.2.2.2 ("latest: " ++ String.mk [sq] ++ "2.6.1" ++ String.mk [sq]) "2.6.1"
     ["second call"] rfl⟩

theorem claim_C10_witness :
    ∃ tr res, typescriptPass none (mkInput (some pjAbsent) true none none [])
        = (tr, Except.ok res)
      ∧ res.packageJson.devDependencies.isSome = true
      ∧ res.packageJson.scripts.isSome = true
      ∧ getKey (res.packageJson.devDependencies.getD []) generatorPackageName
          = some ("^" ++ "2.6.1")
      ∧ getKey (res.packageJson.scripts.getD []) npmScriptName = some npmScriptCommand
      ∧ (pjAbsent.devDependencies = none → res.majorVersionBump = true
          ∧ getKey (res.packageJson.devDependencies.getD []) "bower" = some "^1.8.0")
      ∧ (∀ r2, getKey (pjAbsent.devDependencies.getD []) "bower" = some r2 →
          getKey (res.packageJson.devDependencies.getD []) "bower" = some r2) :=
  claim_C10 none (mkInput (some pjAbsent) true none none []) pjAbsent "2.6.1"
    (some "2.6.1") true rfl rfl rfl rfl (Or.inl rfl)

end Tedium
